import Mathlib

/-!
Verification of the gemini_image_gen repository: a shallow embedding of
its request-building and response-extraction code.

The embedded functions mirror `src/core.py` and `src/generate.py`:
  - `load_image_for_api` (core.py lines 42-61): read a reference image
    file, pick a mime-type from the path extension, wrap it in a Part.
  - `_save_response_image` (core.py lines 281-301) / the extraction loop of
    `generate_image` (generate.py lines 56-73): iterate the parts of
    `response.candidates[0]`, print Text parts, save InlineImage parts to
    timestamped files, return the last saved path (or None).
  - the startup credential check (generate.py lines 19-22, core.py 24-26).
  - the output-directory creation (core.py line 83 with parents=True,
    generate.py line 29 without parents).

Effects (prints, file writes, clock reads) are made explicit: the clock is
a function from the index of the datetime.now() call to a timestamp, and
the extraction state records the log lines and write events in order.
-/

namespace GeminiGen

/-- Bytes of a file or an inline blob, modelled as a list of byte values. -/
abbrev Bytes := List Nat

/-- `google.genai.types.Blob`: raw data plus a mime type. -/
structure Blob where
  data : Bytes
  mime_type : String
deriving DecidableEq, Repr

/-- `google.genai.types.Part`: either advisory text, inline image data,
both, or neither (the fields are independent optionals, as in the SDK). -/
structure Part where
  text : Option String
  inline_data : Option Blob
deriving DecidableEq, Repr

/-- `content` of a candidate: an ordered list of parts. -/
structure Content where
  parts : List Part
deriving DecidableEq, Repr

/-- One candidate of a model response. -/
structure Candidate where
  content : Content
deriving DecidableEq, Repr

/-- A model response: an ordered list of candidates. -/
structure Response where
  candidates : List Candidate
deriving DecidableEq, Repr

/-- A wall-clock timestamp at one-second resolution, the granularity used
by `datetime.now().strftime("%Y%m%d_%H%M%S")`. -/
structure Timestamp where
  year : Nat
  month : Nat
  day : Nat
  hour : Nat
  minute : Nat
  second : Nat
deriving DecidableEq, Repr

/-- Zero-pad a number to two digits, as strftime does for %m %d %H %M %S. -/
def pad2 (n : Nat) : String :=
  if n < 10 then "0" ++ toString n else toString n

/-- Zero-pad a number to four digits, as strftime does for %Y. -/
def pad4 (n : Nat) : String :=
  if n < 10 then "000" ++ toString n
  else if n < 100 then "00" ++ toString n
  else if n < 1000 then "0" ++ toString n
  else toString n

/-- `datetime.strftime("%Y%m%d_%H%M%S")`. -/
def fmtTimestamp (t : Timestamp) : String :=
  pad4 t.year ++ pad2 t.month ++ pad2 t.day ++ "_" ++
    pad2 t.hour ++ pad2 t.minute ++ pad2 t.second

/-- The clock: call index of `datetime.now()` to the timestamp it returns. -/
abbrev Clock := Nat → Timestamp

/-- Observable state threaded through `_save_response_image`:
log lines printed, file writes performed (path, bytes) in order, the
`image_path` variable, and how many times `datetime.now()` was called. -/
structure ExtractState where
  logs : List String
  writes : List (String × Bytes)
  imagePath : Option String
  clockCalls : Nat
deriving DecidableEq, Repr

/-- One iteration of the loop body of `_save_response_image`
(core.py lines 289-299):
`if part.text is not None: print(...)`
`elif part.inline_data is not None: <timestamp, filename, save>`. -/
def saveStep (clock : Clock) (output_dir pfx : String)
    (st : ExtractState) (p : Part) : ExtractState :=
  match p.text with
  | some t => { st with logs := st.logs ++ ["Model notes: " ++ t] }
  | none =>
    match p.inline_data with
    | some b =>
      let timestamp := fmtTimestamp (clock st.clockCalls)
      let filename := pfx ++ "_" ++ timestamp ++ ".png"
      let path := output_dir ++ "/" ++ filename
      { st with
          writes := st.writes ++ [(path, b.data)],
          imagePath := some path,
          clockCalls := st.clockCalls + 1 }
    | none => st

/-- `_save_response_image(response, output_dir, filename_prefix)`
(core.py lines 281-301). `none` models the IndexError raised by
`response.candidates[0]` when there is no candidate; otherwise the loop
runs over the first candidate's parts from a fresh state. The Python
return value is the `imagePath` field of the resulting state. -/
def save_response_image (clock : Clock) (response : Response)
    (output_dir pfx : String) : Option ExtractState :=
  match response.candidates with
  | [] => none
  | c :: _ =>
    some (c.content.parts.foldl (saveStep clock output_dir pfx)
      { logs := [], writes := [], imagePath := none, clockCalls := 0 })

/-- A part takes the inline-image branch iff its text field is None and
its inline_data field is not None. -/
def isImagePart (p : Part) : Bool :=
  p.text.isNone && p.inline_data.isSome

/-- Number of parts that take the inline-image branch. -/
def numImageParts (ps : List Part) : Nat :=
  (ps.filter isImagePart).length

/-- The log lines the loop prints, one per Text part, in order. -/
def logLines (ps : List Part) : List String :=
  ps.filterMap (fun p => p.text.map (fun t => "Model notes: " ++ t))

/-- The bytes of the inline-image parts, in part order. -/
def imageDatas (ps : List Part) : List Bytes :=
  ps.filterMap (fun p => if p.text.isNone then p.inline_data.map Blob.data else none)

/-- The write events the loop performs: one per inline-image part, in part
order, the k-th image part stamped with the k-th clock reading (offset by
the first argument). -/
def imageWrites (clock : Clock) (output_dir pfx : String) :
    Nat → List Part → List (String × Bytes)
  | _, [] => []
  | k, p :: ps =>
    match p.text with
    | some _ => imageWrites clock output_dir pfx k ps
    | none =>
      match p.inline_data with
      | some b =>
        (output_dir ++ "/" ++ (pfx ++ "_" ++ fmtTimestamp (clock k) ++ ".png"),
          b.data) :: imageWrites clock output_dir pfx (k + 1) ps
      | none => imageWrites clock output_dir pfx k ps

/-- Final disk content at a path after a sequence of write events: the
last write to that path wins; `none` if the path was never written. -/
def diskAfter (writes : List (String × Bytes)) (p : String) : Option Bytes :=
  writes.foldl (fun acc w => if w.1 = p then some w.2 else acc) none

/-- The mime-type table of `load_image_for_api` (core.py lines 48-54). -/
def mime_types : List (String × String) :=
  [(".png", "image/png"), (".jpg", "image/jpeg"), (".jpeg", "image/jpeg"),
    (".webp", "image/webp"), (".gif", "image/gif")]

/-- `mime_types.get(suffix, "image/png")` (core.py line 55). -/
def mimeFromSuffix (s : String) : String :=
  (mime_types.lookup s).getD "image/png"

/-- Split a character list at every slash, keeping empty segments. -/
def splitOnSlash : List Char → List (List Char)
  | [] => [[]]
  | c :: cs =>
    let r := splitOnSlash cs
    if c = '/' then [] :: r
    else (c :: r.headD []) :: r.tail

/-- The final path component, after `pathlib` drops empty and "."
components: `Path(p).name`. -/
def pathNameChars (p : List Char) : List Char :=
  ((splitOnSlash p).filter (fun s => s ≠ [] && s ≠ ['.'])).getLastD []

/-- Index of the last occurrence of a dot in the name, `name.rfind(".")`
with -1 mapped to `none`. -/
def lastDotIdx (cs : List Char) : Option Nat :=
  ((List.range cs.length).filter (fun i => cs.getD i ' ' = '.')).getLast?

/-- `Path(p).suffix`: the extension of the final component, empty when the
last dot is at position 0 (a dotfile) or at the end, or there is no dot. -/
def pathSuffixChars (p : List Char) : List Char :=
  let cs := pathNameChars p
  match lastDotIdx cs with
  | some i => if 0 < i && i < cs.length - 1 then cs.drop i else []
  | none => []

/-- `path.suffix.lower()` (core.py line 47). -/
def pathSuffixLower (p : String) : String :=
  String.mk ((pathSuffixChars p.toList).map Char.toLower)

/-- `path.suffix.lower()` fed through the mime table (core.py lines 47-55). -/
def mimeFromPath (p : String) : String :=
  mimeFromSuffix (pathSuffixLower p)

/-- A file system for reads: an association of paths to byte contents. -/
abbrev FileSys := List (String × Bytes)

/-- `open(path, "rb").read()`: `none` models the OSError when the path
cannot be read. -/
def readFileBytes (fs : FileSys) (p : String) : Option Bytes :=
  fs.lookup p

/-- `load_image_for_api(image_path)` (core.py lines 42-61): determine the
mime type from the extension, read the file, wrap the bytes in a Part via
`types.Part.from_bytes` (pure construction, no validation of the data).
`none` models the propagated read error. -/
def load_image_for_api (fs : FileSys) (image_path : String) : Option Part :=
  match readFileBytes fs image_path with
  | none => none
  | some image_data =>
    some { text := none,
           inline_data := some { data := image_data,
                                 mime_type := mimeFromPath image_path } }

/-- A directory tree: the set of existing directories, each a list of path
components; the empty list is the root / current directory and always
exists implicitly. -/
abbrev DirSys := List (List String)

/-- `Path(output_dir).mkdir(parents=True, exist_ok=True)` (core.py line
83): every prefix of the path is created, existing directories are kept,
and the call never fails. -/
def mkdirParentsExistOk (dirs : DirSys) (p : List String) : DirSys :=
  dirs ++ p.inits

/-- `OUTPUT_DIR.mkdir(exist_ok=True)` (generate.py line 29): only the leaf
directory is created; `none` models the FileNotFoundError raised when the
parent directory does not exist, since `parents` defaults to False. -/
def mkdirLeafExistOk (dirs : DirSys) (p : List String) : Option DirSys :=
  if p ∈ dirs then some dirs
  else if p.dropLast ∈ dirs ∨ p.dropLast = [] then some (dirs ++ [p])
  else none

/-- A file write succeeds exactly when the directory holding it exists. -/
def writeOk (dirs : DirSys) (filePath : List String) : Bool :=
  decide (filePath.dropLast ∈ dirs ∨ filePath.dropLast = [])

/-- `generate_image` of core.py (lines 64-96), with the network call
abstracted as the response argument: the directory creation at lines 82-83
happens before `_save_response_image` performs any write. -/
def generate_image_core (clock : Clock) (dirs : DirSys)
    (output_dir : List String) (pfx : String) (response : Response) :
    DirSys × Option ExtractState :=
  let dirsAfter := mkdirParentsExistOk dirs output_dir
  (dirsAfter,
    save_response_image clock response (String.intercalate "/" output_dir) pfx)

/-- Outcome of module-level startup. -/
inductive StartupOutcome where
  | exitWith (code : Nat)
  | ready
deriving DecidableEq, Repr

/-- The credential check shared by generate.py lines 19-22
(`sys.exit(1)`) and core.py lines 24-26 (uncaught ValueError, which
terminates the interpreter with exit status 1): `if not API_KEY` fires
when the variable is absent or empty. -/
def startupCheck (env : String → Option String) : StartupOutcome :=
  match env "GEMINI_API_KEY" with
  | none => .exitWith 1
  | some k => if k = "" then .exitWith 1 else .ready

/-- A whole program run, counting network calls: the startup check runs
before the client is built, so a failed check exits with zero network
calls made and no retry; otherwise the session body runs and performs its
calls. -/
def programRun (env : String → Option String) (sessionCalls : Nat) :
    Nat × Option Nat :=
  match startupCheck env with
  | .exitWith c => (0, some c)
  | .ready => (sessionCalls, none)

/-- A blob with fixed mime type, for concrete test inputs. -/
def demoBlob (b : Bytes) : Blob :=
  { data := b, mime_type := "image/png" }

/-- A part carrying only inline image data. -/
def imgPart (b : Bytes) : Part :=
  { text := none, inline_data := some (demoBlob b) }

/-- A part carrying only text. -/
def txtPart (t : String) : Part :=
  { text := some t, inline_data := none }

/-- A concrete clock whose second field advances with the call index. -/
def demoClock : Clock :=
  fun k => { year := 2024, month := 5, day := 6, hour := 7, minute := 8, second := k }

/-- A concrete clock frozen at a single second. -/
def constClock : Clock :=
  fun _ => { year := 2024, month := 1, day := 2, hour := 3, minute := 4, second := 5 }

/-- Concrete parts: one text part followed by two image parts. -/
def demoParts : List Part :=
  [txtPart "hello", imgPart [1, 2], imgPart [3]]

/- Helper lemmas characterizing the extraction loop. -/

theorem foldl_saveStep (clock : Clock) (dir pfx : String) (ps : List Part)
    (st : ExtractState) :
    ps.foldl (saveStep clock dir pfx) st =
      { logs := st.logs ++ logLines ps,
        writes := st.writes ++ imageWrites clock dir pfx st.clockCalls ps,
        imagePath := (imageWrites clock dir pfx st.clockCalls ps).foldl
          (fun _ w => some w.1) st.imagePath,
        clockCalls := st.clockCalls + numImageParts ps } := by
  induction ps generalizing st with
  | nil => simp [logLines, imageWrites, numImageParts]
  | cons p ps ih =>
    obtain ⟨pt, pd⟩ := p
    cases pt with
    | some t =>
      simp only [List.foldl_cons, saveStep, ih]
      simp [logLines, imageWrites, numImageParts, isImagePart, List.filter,
        List.filterMap, List.append_assoc]
    | none =>
      cases pd with
      | some b =>
        simp only [List.foldl_cons, saveStep, ih]
        simp [logLines, imageWrites, numImageParts, isImagePart, List.filter,
          List.filterMap, List.append_assoc]
        omega
      | none =>
        simp only [List.foldl_cons, saveStep, ih]
        simp [logLines, imageWrites, numImageParts, isImagePart, List.filter,
          List.filterMap]

theorem imageWrites_length (clock : Clock) (dir pfx : String) (k : Nat)
    (ps : List Part) :
    (imageWrites clock dir pfx k ps).length = numImageParts ps := by
  induction ps generalizing k with
  | nil => simp [imageWrites, numImageParts]
  | cons p ps ih =>
    obtain ⟨pt, pd⟩ := p
    cases pt <;> cases pd <;>
      simp [imageWrites, numImageParts, isImagePart, List.filter, ih]

theorem imageWrites_map_snd (clock : Clock) (dir pfx : String) (k : Nat)
    (ps : List Part) :
    (imageWrites clock dir pfx k ps).map Prod.snd = imageDatas ps := by
  induction ps generalizing k with
  | nil => simp [imageWrites, imageDatas]
  | cons p ps ih =>
    obtain ⟨pt, pd⟩ := p
    cases pt <;> cases pd <;>
      simp [imageWrites, imageDatas, List.filterMap, ih]

theorem imageWrites_path_shape (clock : Clock) (dir pfx : String) (k : Nat)
    (ps : List Part) :
    ∀ w ∈ imageWrites clock dir pfx k ps, ∃ j,
      w.1 = dir ++ "/" ++ (pfx ++ "_" ++ fmtTimestamp (clock j) ++ ".png") := by
  induction ps generalizing k with
  | nil => simp [imageWrites]
  | cons p ps ih =>
    obtain ⟨pt, pd⟩ := p
    cases pt with
    | some t => exact fun w hw => ih k w (by simpa [imageWrites] using hw)
    | none =>
      cases pd with
      | some b =>
        intro w hw
        rcases (by simpa [imageWrites] using hw :
            w = (dir ++ "/" ++ (pfx ++ "_" ++ fmtTimestamp (clock k) ++ ".png"),
              b.data) ∨ w ∈ imageWrites clock dir pfx (k + 1) ps) with h | h
        · exact ⟨k, by rw [h]⟩
        · exact ih (k + 1) w h
      | none => exact fun w hw => ih k w (by simpa [imageWrites] using hw)

theorem foldl_last_write (l : List (String × Bytes)) (init : Option String)
    (h : l ≠ []) :
    l.foldl (fun _ w => some w.1) init = (l.map Prod.fst).getLast? := by
  induction l generalizing init with
  | nil => cases h rfl
  | cons a l ih =>
    cases l with
    | nil => simp
    | cons b l =>
      rw [List.foldl_cons, ih (some a.1) (by simp)]
      simp [List.getLast?_cons_cons]

theorem numImageParts_zero_of_text (ps : List Part)
    (h : ∀ p ∈ ps, p.text.isSome) : numImageParts ps = 0 := by
  have hall : ∀ p ∈ ps, isImagePart p = false := by
    intro p hp
    have hs := h p hp
    simp [isImagePart, Option.isNone_iff_eq_none]
    intro hn
    rw [hn] at hs
    cases hs
  rw [numImageParts, List.length_eq_zero, List.filter_eq_nil_iff]
  intro p hp
  simp [hall p hp]

theorem logLines_length_of_text (ps : List Part)
    (h : ∀ p ∈ ps, p.text.isSome) : (logLines ps).length = ps.length := by
  induction ps with
  | nil => simp [logLines]
  | cons p ps ih =>
    have hp := h p (List.mem_cons_self p ps)
    obtain ⟨t, ht⟩ := Option.isSome_iff_exists.mp hp
    simp [logLines, List.filterMap, ht]
    have := ih fun q hq => h q (List.mem_cons_of_mem p hq)
    simpa [logLines] using this

theorem lookup_mime_none (s : String)
    (h : s ∉ [".png", ".jpg", ".jpeg", ".webp", ".gif"]) :
    mime_types.lookup s = none := by
  simp only [List.mem_cons, List.not_mem_nil, or_false, not_or] at h
  obtain ⟨h1, h2, h3, h4, h5⟩ := h
  have e1 : (s == ".png") = false := beq_eq_false_iff_ne.mpr h1
  have e2 : (s == ".jpg") = false := beq_eq_false_iff_ne.mpr h2
  have e3 : (s == ".jpeg") = false := beq_eq_false_iff_ne.mpr h3
  have e4 : (s == ".webp") = false := beq_eq_false_iff_ne.mpr h4
  have e5 : (s == ".gif") = false := beq_eq_false_iff_ne.mpr h5
  simp [mime_types, List.lookup, e1, e2, e3, e4, e5]

theorem mimeFromSuffix_mem (s : String) :
    mimeFromSuffix s ∈ ["image/png", "image/jpeg", "image/webp", "image/gif"] := by
  by_cases h : s ∈ [".png", ".jpg", ".jpeg", ".webp", ".gif"]
  · simp only [List.mem_cons, List.not_mem_nil, or_false] at h
    rcases h with rfl | rfl | rfl | rfl | rfl <;> decide
  · simp [mimeFromSuffix, lookup_mime_none s h]

/-- C1: for a response whose first candidate contains at least one
InlineImage part, extraction performs one file write per InlineImage part,
in part order, each write carrying that part's bytes, and the returned
path is the path of the last write, i.e. of the last InlineImage part
processed; with exactly one image part this is that single file's path. -/
theorem extract_writes_each_returns_last (clock : Clock) (dir pfx : String)
    (ps : List Part) (rest : List Candidate)
    (h : 1 ≤ numImageParts ps) :
    ∃ st, save_response_image clock
        { candidates := { content := { parts := ps } } :: rest } dir pfx = some st ∧
      st.writes = imageWrites clock dir pfx 0 ps ∧
      st.writes.length = numImageParts ps ∧
      st.writes.map Prod.snd = imageDatas ps ∧
      st.imagePath = (st.writes.map Prod.fst).getLast? := by
  have hne : imageWrites clock dir pfx 0 ps ≠ [] := by
    intro he
    have hl := imageWrites_length clock dir pfx 0 ps
    rw [he] at hl
    simp at hl
    omega
  refine ⟨ps.foldl (saveStep clock dir pfx) ⟨[], [], none, 0⟩, rfl, ?_, ?_, ?_, ?_⟩ <;>
    rw [foldl_saveStep]
  · simp
  · simp [imageWrites_length]
  · simp [imageWrites_map_snd]
  · simp only [List.nil_append]
    exact foldl_last_write _ none hne

/-- Witness for C1 at a concrete response with two InlineImage parts. -/
theorem extract_writes_each_returns_last_w :
    1 ≤ numImageParts demoParts ∧
    (∃ st, save_response_image demoClock
        { candidates := { content := { parts := demoParts } } :: [] } "out" "generated" = some st ∧
      st.writes = imageWrites demoClock "out" "generated" 0 demoParts ∧
      st.writes.length = numImageParts demoParts ∧
      st.writes.map Prod.snd = imageDatas demoParts ∧
      st.imagePath = (st.writes.map Prod.fst).getLast?) :=
  ⟨by decide,
    extract_writes_each_returns_last demoClock "out" "generated" demoParts [] (by decide)⟩

/-- C2: for a response whose first candidate contains no InlineImage part
(in particular a candidate with zero parts), extraction returns None and
performs no file write. -/
theorem extract_no_image_returns_none (clock : Clock) (dir pfx : String)
    (ps : List Part) (rest : List Candidate)
    (h : numImageParts ps = 0) :
    ∃ st, save_response_image clock
        { candidates := { content := { parts := ps } } :: rest } dir pfx = some st ∧
      st.writes = [] ∧ st.imagePath = none := by
  have hw : imageWrites clock dir pfx 0 ps = [] := by
    rw [← List.length_eq_zero, imageWrites_length]
    exact h
  exact ⟨_, rfl, by rw [foldl_saveStep]; simp [hw]⟩

/-- Witness for C2 at a concrete response with zero parts. -/
theorem extract_no_image_returns_none_w :
    numImageParts [] = 0 ∧
    (∃ st, save_response_image demoClock
        { candidates := { content := { parts := [] } } :: [] } "out" "generated" = some st ∧
      st.writes = [] ∧ st.imagePath = none) :=
  ⟨by decide, extract_no_image_returns_none demoClock "out" "generated" [] [] (by decide)⟩

/-- C3 counterexample: the directory creation of generate.py line 29 is
not recursive: with the parent of the output directory absent, the mkdir
call fails with FileNotFoundError instead of creating the missing
ancestor, refuting the claim that every write site creates all missing
ancestors. -/
theorem generate_py_mkdir_not_recursive :
    mkdirLeafExistOk [] ["gemini_image_gen", "output"] = none := by decide

/-- C3 (amended): core.py's generate_image creates the output directory
recursively, all missing ancestors included, before any write, so a
subsequent write into the previously nonexistent directory succeeds and
existing directories are preserved; generate.py's module-level mkdir
creates only the leaf output directory (exist_ok, parents=False), which
succeeds whenever its parent, the script's directory, exists. -/
theorem output_dir_created_before_write (clock : Clock) (dirs : DirSys)
    (outDir : List String) (pfx fname : String) (r : Response) :
    (∀ q, q <+: outDir → q ∈ (generate_image_core clock dirs outDir pfx r).1) ∧
    writeOk (generate_image_core clock dirs outDir pfx r).1 (outDir ++ [fname]) = true ∧
    (∀ d ∈ dirs, d ∈ (generate_image_core clock dirs outDir pfx r).1) ∧
    (∀ ds, outDir.dropLast ∈ ds →
      ∃ ds2, mkdirLeafExistOk ds outDir = some ds2 ∧ outDir ∈ ds2) := by
  refine ⟨?_, ?_, ?_, ?_⟩
  · intro q hq
    simp only [generate_image_core, mkdirParentsExistOk, List.mem_append]
    exact Or.inr ((List.mem_inits q outDir).mpr hq)
  · rw [writeOk, decide_eq_true_eq, List.dropLast_concat]
    exact Or.inl (by
      simp only [generate_image_core, mkdirParentsExistOk, List.mem_append]
      exact Or.inr ((List.mem_inits outDir outDir).mpr List.prefix_rfl))
  · intro d hd
    simp only [generate_image_core, mkdirParentsExistOk, List.mem_append]
    exact Or.inl hd
  · intro ds hds
    by_cases hmem : outDir ∈ ds
    · exact ⟨ds, by simp [mkdirLeafExistOk, hmem], hmem⟩
    · refine ⟨ds ++ [outDir], ?_, by simp⟩
      simp [mkdirLeafExistOk, hmem, hds]

/-- C4 counterexample: an empty reference file is accepted, not rejected:
load_image_for_api wraps the empty byte string in a Part exactly as it
would any other content. -/
theorem empty_reference_accepted :
    load_image_for_api [("ref.png", [])] "ref.png" =
      some { text := none,
             inline_data := some { data := [], mime_type := "image/png" } } := by
  decide

/-- C4 (amended): load_image_for_api fails exactly when the reference
file cannot be read from its path; whenever the read succeeds, the bytes,
empty or not, are wrapped unvalidated in a Part with the extension-derived
mime type. -/
theorem load_image_fails_iff_unreadable (fs : FileSys) (p : String) :
    (load_image_for_api fs p = none ↔ readFileBytes fs p = none) ∧
    load_image_for_api fs p = (readFileBytes fs p).map
      (fun d => { text := none,
                  inline_data := some { data := d, mime_type := mimeFromPath p } }) := by
  cases h : readFileBytes fs p <;> simp [load_image_for_api, h]

/-- C5: the mime type attached to a reference image is determined solely
by the path's lowercased extension; the five recognized extensions map to
their image mime types, and every other extension defaults to image/png. -/
theorem mime_determined_by_extension (p q : String)
    (h : pathSuffixLower p = pathSuffixLower q) :
    mimeFromPath p = mimeFromPath q ∧
    mimeFromPath p ∈ ["image/png", "image/jpeg", "image/webp", "image/gif"] ∧
    (pathSuffixLower p ∉ [".png", ".jpg", ".jpeg", ".webp", ".gif"] →
      mimeFromPath p = "image/png") ∧
    mimeFromSuffix ".png" = "image/png" ∧
    mimeFromSuffix ".jpg" = "image/jpeg" ∧
    mimeFromSuffix ".jpeg" = "image/jpeg" ∧
    mimeFromSuffix ".webp" = "image/webp" ∧
    mimeFromSuffix ".gif" = "image/gif" := by
  refine ⟨by rw [mimeFromPath, mimeFromPath, h], mimeFromSuffix_mem _, ?_,
    by decide, by decide, by decide, by decide, by decide⟩
  intro hd
  rw [mimeFromPath, mimeFromSuffix, lookup_mime_none _ hd]
  rfl

/-- Witness for C5 at two paths sharing the unrecognized extension .bmp. -/
theorem mime_determined_by_extension_w :
    pathSuffixLower "dir/photo.BMP" = pathSuffixLower "other/pic.bmp" ∧
    (mimeFromPath "dir/photo.BMP" = mimeFromPath "other/pic.bmp" ∧
    mimeFromPath "dir/photo.BMP" ∈ ["image/png", "image/jpeg", "image/webp", "image/gif"] ∧
    (pathSuffixLower "dir/photo.BMP" ∉ [".png", ".jpg", ".jpeg", ".webp", ".gif"] →
      mimeFromPath "dir/photo.BMP" = "image/png") ∧
    mimeFromSuffix ".png" = "image/png" ∧
    mimeFromSuffix ".jpg" = "image/jpeg" ∧
    mimeFromSuffix ".jpeg" = "image/jpeg" ∧
    mimeFromSuffix ".webp" = "image/webp" ∧
    mimeFromSuffix ".gif" = "image/gif") :=
  ⟨by decide, mime_determined_by_extension "dir/photo.BMP" "other/pic.bmp" (by decide)⟩

/-- C6: for every response, mixed or not, every Text part of the first
candidate is emitted to the log, one line per Text part in part order,
and no file write is performed on a Text part's behalf: the write events
are exactly one per InlineImage part and carry image bytes only; in the
special case of a response consisting only of Text parts there is no
write at all and the result is None, while every text stays observable
via its log line. -/
theorem text_parts_logged_never_written (clock : Clock) (dir pfx : String)
    (ps : List Part) (rest : List Candidate) :
    (∃ st, save_response_image clock
        { candidates := { content := { parts := ps } } :: rest } dir pfx = some st ∧
      st.logs = logLines ps ∧
      st.writes = imageWrites clock dir pfx 0 ps ∧
      st.writes.length = numImageParts ps ∧
      st.writes.map Prod.snd = imageDatas ps) ∧
    ((∀ p ∈ ps, p.text.isSome) → ∃ st, save_response_image clock
        { candidates := { content := { parts := ps } } :: rest } dir pfx = some st ∧
      st.logs = logLines ps ∧
      st.logs.length = ps.length ∧
      st.writes = [] ∧ st.imagePath = none) := by
  constructor
  · refine ⟨_, rfl, ?_, ?_, ?_⟩ <;> rw [foldl_saveStep] <;>
      simp [imageWrites_length, imageWrites_map_snd]
  · intro h
    have hz : numImageParts ps = 0 := numImageParts_zero_of_text ps h
    have hw : imageWrites clock dir pfx 0 ps = [] := by
      rw [← List.length_eq_zero, imageWrites_length]
      exact hz
    refine ⟨_, rfl, ?_, ?_, ?_, ?_⟩ <;> rw [foldl_saveStep] <;>
      simp [hw, logLines_length_of_text ps h]

/-- C7: every write performed by extraction targets a path whose filename
is exactly the prefix, an underscore, the strftime-formatted timestamp of
one clock reading, and the extension .png; when two image parts are
processed within the same second under the same prefix, both writes
target the same path and the later write overwrites the earlier one on
disk. -/
theorem filename_format_and_same_second_overwrite (clock : Clock)
    (dir pfx : String) (ps : List Part) (rest : List Candidate)
    (b1 b2 : Bytes) (hclock : clock 0 = clock 1) :
    (∀ st, save_response_image clock
        { candidates := { content := { parts := ps } } :: rest } dir pfx = some st →
      ∀ w ∈ st.writes, ∃ j,
        w.1 = dir ++ "/" ++ (pfx ++ "_" ++ fmtTimestamp (clock j) ++ ".png")) ∧
    (∃ st, save_response_image clock
        { candidates := { content := { parts := [imgPart b1, imgPart b2] } } :: rest } dir pfx = some st ∧
      st.writes =
        [(dir ++ "/" ++ (pfx ++ "_" ++ fmtTimestamp (clock 0) ++ ".png"), b1),
          (dir ++ "/" ++ (pfx ++ "_" ++ fmtTimestamp (clock 0) ++ ".png"), b2)] ∧
      diskAfter st.writes
        (dir ++ "/" ++ (pfx ++ "_" ++ fmtTimestamp (clock 0) ++ ".png")) = some b2) := by
  constructor
  · intro st hst w hw
    have hst2 : st = ps.foldl (saveStep clock dir pfx) ⟨[], [], none, 0⟩ :=
      (Option.some.injEq _ _ ▸ hst).symm
    rw [hst2, foldl_saveStep] at hw
    simp only [List.nil_append] at hw
    exact imageWrites_path_shape clock dir pfx 0 ps w hw
  · refine ⟨_, rfl, ?_, ?_⟩ <;>
      rw [foldl_saveStep] <;>
      simp [imageWrites, imgPart, demoBlob, hclock, diskAfter]

/-- Witness for C7 under a clock frozen at one second. -/
theorem filename_format_and_same_second_overwrite_w :
    constClock 0 = constClock 1 ∧
    ((∀ st, save_response_image constClock
        { candidates := { content := { parts := demoParts } } :: [] } "out" "generated" = some st →
      ∀ w ∈ st.writes, ∃ j,
        w.1 = "out" ++ "/" ++ ("generated" ++ "_" ++ fmtTimestamp (constClock j) ++ ".png")) ∧
    (∃ st, save_response_image constClock
        { candidates := { content := { parts := [imgPart [7], imgPart [8, 9]] } } :: [] } "out" "generated" = some st ∧
      st.writes =
        [("out" ++ "/" ++ ("generated" ++ "_" ++ fmtTimestamp (constClock 0) ++ ".png"), [7]),
          ("out" ++ "/" ++ ("generated" ++ "_" ++ fmtTimestamp (constClock 0) ++ ".png"), [8, 9])] ∧
      diskAfter st.writes
        ("out" ++ "/" ++ ("generated" ++ "_" ++ fmtTimestamp (constClock 0) ++ ".png")) = some [8, 9])) :=
  ⟨rfl, filename_format_and_same_second_overwrite constClock "out" "generated"
    demoParts [] [7] [8, 9] rfl⟩

/-- C8: when the GEMINI_API_KEY environment value is absent, the startup
check fires, the process terminates with exit status 1, and zero network
calls are made: the session body, whatever calls it would have made, never
runs and nothing is retried. -/
theorem missing_credential_immediate_exit (env : String → Option String)
    (sessionCalls : Nat) (h : env "GEMINI_API_KEY" = none) :
    startupCheck env = StartupOutcome.exitWith 1 ∧
    programRun env sessionCalls = (0, some 1) ∧ (1 : Nat) ≠ 0 := by
  have hs : startupCheck env = .exitWith 1 := by simp [startupCheck, h]
  exact ⟨hs, by simp [programRun, hs], one_ne_zero⟩

/-- Witness for C8 at an empty environment. -/
theorem missing_credential_immediate_exit_w :
    (fun _ => (none : Option String)) "GEMINI_API_KEY" = none ∧
    (startupCheck (fun _ => none) = StartupOutcome.exitWith 1 ∧
    programRun (fun _ => none) 7 = (0, some 1) ∧ (1 : Nat) ≠ 0) :=
  ⟨rfl, missing_credential_immediate_exit (fun _ => none) 7 rfl⟩

/-- C9: extraction depends only on the first candidate: its outcome is
identical under any replacement of the later candidates, and the log
lines, the writes and the returned path are computed from the first
candidate's parts alone. -/
theorem only_first_candidate_inspected (clock : Clock) (dir pfx : String)
    (c : Candidate) (rest1 rest2 : List Candidate) :
    save_response_image clock { candidates := c :: rest1 } dir pfx =
      save_response_image clock { candidates := c :: rest2 } dir pfx ∧
    save_response_image clock { candidates := c :: rest1 } dir pfx =
      some { logs := logLines c.content.parts,
             writes := imageWrites clock dir pfx 0 c.content.parts,
             imagePath := (imageWrites clock dir pfx 0 c.content.parts).foldl
               (fun _ w => some w.1) none,
             clockCalls := numImageParts c.content.parts } := by
  refine ⟨rfl, ?_⟩
  have hred : save_response_image clock { candidates := c :: rest1 } dir pfx =
      some (c.content.parts.foldl (saveStep clock dir pfx) ⟨[], [], none, 0⟩) := rfl
  rw [hred, foldl_saveStep]
  simp

/-- C10: part classification gives text precedence: on a part whose text
and inline_data fields are both set, the loop body only appends the log
line, leaving the writes, the recorded path and the clock untouched; a
write can only happen on a part whose text field is None, and a response
holding one such both-fields part yields one log line, no write, and a
None result. -/
theorem text_precedence_over_inline (clock : Clock) (dir pfx : String)
    (st : ExtractState) (p : Part) (t : String) (b : Blob)
    (h1 : p.text = some t) (h2 : p.inline_data = some b) :
    saveStep clock dir pfx st p =
      { st with logs := st.logs ++ ["Model notes: " ++ t] } ∧
    (saveStep clock dir pfx st p).writes = st.writes ∧
    (saveStep clock dir pfx st p).imagePath = st.imagePath ∧
    (∀ q st2, q.text ≠ none →
      (saveStep clock dir pfx st2 q).writes = st2.writes ∧
      (saveStep clock dir pfx st2 q).imagePath = st2.imagePath) ∧
    (∃ st3, save_response_image clock
        { candidates := [{ content := { parts := [p] } }] } dir pfx = some st3 ∧
      st3.logs = ["Model notes: " ++ t] ∧ st3.writes = [] ∧ st3.imagePath = none) := by
  refine ⟨by simp [saveStep, h1], by simp [saveStep, h1], by simp [saveStep, h1],
    ?_, ?_⟩
  · intro q st2 hq
    cases hq2 : q.text with
    | none => cases hq hq2
    | some u => simp [saveStep, hq2]
  · exact ⟨_, rfl, by simp [saveStep, h1]⟩

/-- Witness for C10 at a part carrying both text and inline data. -/
theorem text_precedence_over_inline_w :
    ({ text := some "note", inline_data := some (demoBlob [9]) } : Part).text = some "note" ∧
    ({ text := some "note", inline_data := some (demoBlob [9]) } : Part).inline_data = some (demoBlob [9]) ∧
    (saveStep demoClock "out" "generated"
        { logs := [], writes := [], imagePath := none, clockCalls := 0 }
        { text := some "note", inline_data := some (demoBlob [9]) } =
      { logs := [] ++ ["Model notes: " ++ "note"], writes := [], imagePath := none, clockCalls := 0 }) :=
  ⟨rfl, rfl,
    (text_precedence_over_inline demoClock "out" "generated"
      { logs := [], writes := [], imagePath := none, clockCalls := 0 }
      { text := some "note", inline_data := some (demoBlob [9]) } "note" (demoBlob [9])
      rfl rfl).1⟩

end GeminiGen
